import Mathlib

/-!
Shallow embedding of the two congestion-control engines of this repository,
tcp_nice.c (TCP Nice) and tcp_westwoodlp.c (TCP Westwood+LP), together with
the Linux 4.4 host-stack helpers they call (tcp_slow_start,
tcp_reno_cong_avoid, tcp_cong_avoid_ai, tcp_current_ssthresh,
tcp_in_slow_start, the after() sequence comparison and usecs_to_jiffies,
modelled for HZ = 1000 on an LP64 platform, the configuration these modules
target).  Machine integers are modelled as Nat with explicit reduction
modulo 2^8 / 2^16 / 2^32 exactly where the C arithmetic wraps.  The host
TCP state the engines read and write is the Tcp structure; per-call host
inputs (acknowledgment number, acked count, the cwnd-limited flag, the CWR
congestion-state flag and the current jiffies clock) are passed as
parameters.
-/

namespace LbeTcp

def U8 : Nat := 256

def U16 : Nat := 65536

def U32 : Nat := 4294967296

def U64 : Nat := 18446744073709551616

/-- Wrapping 32-bit subtraction a - b as C computes it on u32 operands. -/
def sub32 (a b : Nat) : Nat := (a % U32 + (U32 - b % U32)) % U32

/-- Wrapping 8-bit subtraction a - b as C computes it on u8 operands. -/
def sub8 (a b : Nat) : Nat := (a % U8 + (U8 - b % U8)) % U8

/-- Kernel sequence-number comparison after(a, b), defined by the macro
after(seq2, seq1) = before(seq1, seq2) with before(s1, s2) = (s32)(s1 - s2) < 0:
so after(a, b) holds iff the u32 difference b - a has its sign bit set (this
is true, in particular, when a sits exactly 2^31 beyond b). -/
def after (a b : Nat) : Bool := decide (2147483648 ≤ sub32 b a)

/-- The host-stack tcp_sock fields read or written by the two engines. -/
structure Tcp where
  snd_cwnd : Nat
  snd_ssthresh : Nat
  snd_cwnd_cnt : Nat
  snd_cwnd_clamp : Nat
  snd_nxt : Nat
  snd_una : Nat
  mss_cache : Nat
  advmss : Nat
  deriving DecidableEq

/-- Kernel helper tcp_in_slow_start: snd_cwnd < snd_ssthresh. -/
def tcp_in_slow_start (tp : Tcp) : Bool := decide (tp.snd_cwnd < tp.snd_ssthresh)

/-- Linux 4.4 tcp_slow_start; returns the updated tcp state and the
residual acked count. -/
def tcp_slow_start (tp : Tcp) (acked : Nat) : Tcp × Nat :=
  let cwnd := min ((tp.snd_cwnd + acked) % U32) tp.snd_ssthresh
  let acked1 := sub32 acked (sub32 cwnd tp.snd_cwnd)
  ({ tp with snd_cwnd := min cwnd tp.snd_cwnd_clamp }, acked1)

/-- Linux 4.4 tcp_cong_avoid_ai.  (The kernel performs the division
snd_cwnd_cnt / w; Nat division by zero is 0 here, a case no scenario in
this development reaches.) -/
def tcp_cong_avoid_ai (tp : Tcp) (w acked : Nat) : Tcp :=
  let p := if w ≤ tp.snd_cwnd_cnt then
             ({ tp with snd_cwnd := (tp.snd_cwnd + 1) % U32 }, 0)
           else (tp, tp.snd_cwnd_cnt)
  let cnt1 := (p.2 + acked) % U32
  let q := if w ≤ cnt1 then
             let delta := cnt1 / w
             ({ p.1 with snd_cwnd := (p.1.snd_cwnd + delta) % U32 },
              sub32 cnt1 (delta * w % U32))
           else (p.1, cnt1)
  { q.1 with snd_cwnd := min q.1.snd_cwnd tp.snd_cwnd_clamp, snd_cwnd_cnt := q.2 }

/-- Linux 4.4 tcp_reno_cong_avoid; the tcp_is_cwnd_limited host predicate is
passed in as the boolean limited. -/
def tcp_reno_cong_avoid (limited : Bool) (tp : Tcp) (acked : Nat) : Tcp :=
  if ¬ limited then tp
  else if tcp_in_slow_start tp then
    let r := tcp_slow_start tp acked
    if r.2 = 0 then r.1 else tcp_cong_avoid_ai r.1 r.1.snd_cwnd r.2
  else tcp_cong_avoid_ai tp tp.snd_cwnd acked

/-- Linux 4.4 tcp_current_ssthresh; cwr tells whether the connection is in
the TCP_CA_CWR congestion state. -/
def tcp_current_ssthresh (cwr : Bool) (tp : Tcp) : Nat :=
  if cwr then tp.snd_ssthresh
  else max tp.snd_ssthresh (tp.snd_cwnd / 2 + tp.snd_cwnd / 4)

/-- Kernel usecs_to_jiffies for HZ = 1000: round up to the next jiffy. -/
def usecs_to_jiffies (u : Nat) : Nat := (u + 999) / 1000

/-- Congestion events delivered through the cwnd_event callback. -/
inductive CaEvent where
  | cwnd_restart
  | tx_start
  | complete_cwr
  | loss
  | other
  deriving DecidableEq

/-! ### tcp_nice.c -/

/-- Module parameter alpha of tcp_nice.c (default 1). -/
def alpha : Nat := 1

/-- Module parameter beta of tcp_nice.c (default 3). -/
def beta : Nat := 3

/-- Module parameter gamma of tcp_nice.c (default 1). -/
def gamma : Nat := 1

/-- Module parameter fraction of tcp_nice.c (default 50). -/
def fraction : Nat := 50

/-- Module parameter threshold of tcp_nice.c (default 20). -/
def threshold : Nat := 20

/-- Module parameter max_fwnd of tcp_nice.c (default 96). -/
def max_fwnd : Nat := 96

/-- Global fraction_divisor, set by tcp_nice_init to 100 / fraction. -/
def fraction_divisor : Nat := 100 / fraction

/-- The struct nice private block of tcp_nice.c.  The fields beg_snd_una and
beg_snd_cwnd are declared in the C struct but never read or written, so
they are omitted.  cntRTT is u16; numCong, fractional_cwnd and nice_timer
are u8; the remaining numeric fields are u32. -/
structure nice where
  beg_snd_nxt : Nat
  cntRTT : Nat
  minRTT : Nat
  maxRTT : Nat
  baseRTT : Nat
  numCong : Nat
  doing_nice_now : Bool
  fractional_cwnd : Nat
  nice_timer : Nat
  deriving DecidableEq

/-- The all-zero private block a freshly allocated socket starts from. -/
def nice0 : nice :=
  { beg_snd_nxt := 0, cntRTT := 0, minRTT := 0, maxRTT := 0, baseRTT := 0,
    numCong := 0, doing_nice_now := false, fractional_cwnd := 0, nice_timer := 0 }

/-- nice_enable of tcp_nice.c. -/
def nice_enable (tp : Tcp) (s : nice) : nice :=
  { s with doing_nice_now := true, beg_snd_nxt := tp.snd_nxt,
           cntRTT := 0, minRTT := 2147483647 }

/-- nice_disable of tcp_nice.c. -/
def nice_disable (s : nice) : nice := { s with doing_nice_now := false }

/-- tcp_nice_init of tcp_nice.c. -/
def tcp_nice_init (tp : Tcp) (s : nice) : nice :=
  nice_enable tp { s with fractional_cwnd := 2, nice_timer := 0, baseRTT := 2147483647 }

/-- tcp_nice_pkts_acked of tcp_nice.c.  rtt_us is the s32 RTT sample in
microseconds; negative samples are ignored; the sample is processed as
vrtt = rtt_us + 1.  In the congestion-detector comparison, the product
threshold * maxRTT is a 32-bit multiply (int * u32) and wraps, while the
other addend is computed in unsigned long (64-bit) arithmetic. -/
def tcp_nice_pkts_acked (s : nice) (rtt_us : Int) : nice :=
  if rtt_us < 0 then s else
  let vrtt : Nat := rtt_us.toNat + 1
  let baseRTT := if vrtt < s.baseRTT then vrtt else s.baseRTT
  let maxRTT1 := if s.cntRTT = 0 then baseRTT * 2 % U32 else s.maxRTT
  let minRTT := min s.minRTT vrtt
  let maxRTT := max maxRTT1 vrtt
  let cntRTT := (s.cntRTT + 1) % U16
  let numCong :=
    if ((100 - threshold) * baseRTT + (threshold * maxRTT) % U32) / 100 < vrtt
    then (s.numCong + 1) % U8 else s.numCong
  { s with baseRTT := baseRTT, maxRTT := maxRTT, minRTT := minRTT,
           cntRTT := cntRTT, numCong := numCong }

/-- tcp_nice_state of tcp_nice.c; isOpen tells whether ca_state is
TCP_CA_Open. -/
def tcp_nice_state (tp : Tcp) (s : nice) (isOpen : Bool) : nice :=
  if isOpen then nice_enable tp s else nice_disable s

/-- tcp_nice_cwnd_event of tcp_nice.c. -/
def tcp_nice_cwnd_event (tp : Tcp) (s : nice) (ev : CaEvent) : nice :=
  if ev = CaEvent.cwnd_restart ∨ ev = CaEvent.tx_start then tcp_nice_init tp s else s

/-- tcp_nice_ssthresh of tcp_nice.c: min(snd_ssthresh, snd_cwnd - 1) in u32
arithmetic. -/
def tcp_nice_ssthresh (tp : Tcp) : Nat :=
  min tp.snd_ssthresh (sub32 tp.snd_cwnd 1)

/-- tcp_reno_fractional_ca of tcp_nice.c.  cwnd_change is an int16_t holding
2 * (snd_cwnd - cur_cwnd); subtracting it from the u8 fractional_cwnd works
modulo 256, so only the residues of the change matter. -/
def tcp_reno_fractional_ca (limited : Bool) (tp : Tcp) (s : nice) (acked : Nat) :
    Tcp × nice :=
  let cur_cwnd := tp.snd_cwnd
  let cur_cwnd_cnt := tp.snd_cwnd_cnt
  let tp1 := tcp_reno_cong_avoid limited tp acked
  let change := 2 * sub32 tp1.snd_cwnd cur_cwnd
  let fwnd1 := if change % U16 ≠ 0 then sub8 s.fractional_cwnd change
               else s.fractional_cwnd
  if 2 < fwnd1 then
    ({ tp1 with snd_cwnd := cur_cwnd, snd_cwnd_cnt := cur_cwnd_cnt },
     { s with fractional_cwnd := fwnd1 })
  else (tp1, { s with fractional_cwnd := 2 })

/-- The fractional-window pacing block at the head of tcp_nice_cong_avoid
(lines 221-229 of tcp_nice.c). -/
def nice_pace (tp : Tcp) (s : nice) : Tcp × nice :=
  if 2 < s.fractional_cwnd ∧ s.nice_timer = s.fractional_cwnd then
    ({ tp with snd_cwnd := 2 }, { s with nice_timer := 1 })
  else if 2 < s.fractional_cwnd then
    ({ tp with snd_cwnd := 0 }, { s with nice_timer := (s.nice_timer + 1) % U8 })
  else (tp, s)

/-- The Reno fallback of tcp_nice_cong_avoid, used both when sampling is
disabled and when a round closed with at most 2 RTT samples: apply the Reno
change to the fractional window when cwnd is small and the fractional
window is in range, otherwise plain Reno. -/
def nice_reno_blend (limited : Bool) (tp : Tcp) (s : nice) (acked : Nat) :
    Tcp × nice :=
  if tp.snd_cwnd ≤ 2 ∧ 2 ≤ s.fractional_cwnd ∧ s.fractional_cwnd ≤ max_fwnd then
    tcp_reno_fractional_ca limited tp s acked
  else (tcp_reno_cong_avoid limited tp acked, s)

/-- The Vegas-style once-per-round decision body of tcp_nice_cong_avoid
(lines 270-364 of tcp_nice.c), before the final clamp.  do_div keeps
target_cwnd in u64; diff is computed entirely in u32 arithmetic. -/
def nice_vegas_core (tp : Tcp) (s : nice) (acked : Nat) : Tcp × nice :=
  let rtt := s.minRTT
  let target_cwnd := tp.snd_cwnd * s.baseRTT % U64 / rtt
  let diff := tp.snd_cwnd * sub32 rtt s.baseRTT % U32 / s.baseRTT
  if gamma < diff ∧ tcp_in_slow_start tp then
    let tpA := { tp with snd_cwnd := min tp.snd_cwnd ((target_cwnd % U32 + 1) % U32) }
    ({ tpA with snd_ssthresh := tcp_nice_ssthresh tpA }, { s with numCong := 0 })
  else if tcp_in_slow_start tp then
    ((tcp_slow_start tp acked).1, s)
  else if tp.snd_cwnd / fraction_divisor < s.numCong then
    if 2 < tp.snd_cwnd ∧ s.fractional_cwnd = 2 then
      ({ tp with snd_cwnd := tp.snd_cwnd / 2 }, { s with numCong := 0 })
    else if s.fractional_cwnd ≤ max_fwnd then
      (tp, { s with fractional_cwnd := s.fractional_cwnd * 4 % U8, numCong := 0 })
    else (tp, { s with numCong := 0 })
  else if beta < diff then
    if 2 < tp.snd_cwnd ∧ s.fractional_cwnd = 2 then
      let tpB := { tp with snd_cwnd := tp.snd_cwnd - 1 }
      ({ tpB with snd_ssthresh := tcp_nice_ssthresh tpB }, s)
    else if s.fractional_cwnd ≤ max_fwnd then
      ({ tp with snd_ssthresh := tcp_nice_ssthresh tp },
       { s with fractional_cwnd := (s.fractional_cwnd + 2) % U8 })
    else ({ tp with snd_ssthresh := tcp_nice_ssthresh tp }, s)
  else if diff < alpha then
    if 2 ≤ tp.snd_cwnd ∧ s.fractional_cwnd = 2 then
      ({ tp with snd_cwnd := (tp.snd_cwnd + 1) % U32 }, s)
    else if s.fractional_cwnd ≤ max_fwnd then
      (tp, { s with fractional_cwnd := sub8 s.fractional_cwnd 2 })
    else (tp, s)
  else (tp, s)

/-- The full once-per-round decision of tcp_nice_cong_avoid: the Vegas body
followed by the cwnd clamp and the ssthresh refresh of lines 366-371. -/
def nice_vegas (cwr : Bool) (tp : Tcp) (s : nice) (acked : Nat) : Tcp × nice :=
  let tp2 := (nice_vegas_core tp s acked).1
  let s2 := (nice_vegas_core tp s acked).2
  let tp3 := if tp2.snd_cwnd < 2 ∧ s2.fractional_cwnd = 2 then
               { tp2 with snd_cwnd := 2 }
             else if tp2.snd_cwnd_clamp < tp2.snd_cwnd then
               { tp2 with snd_cwnd := tp2.snd_cwnd_clamp }
             else tp2
  ({ tp3 with snd_ssthresh := tcp_current_ssthresh cwr tp3 }, s2)

/-- The slate-wipe at the end of a round (lines 375-378 of tcp_nice.c). -/
def nice_wipe (s : nice) : nice :=
  { s with cntRTT := 0, minRTT := 2147483647, maxRTT := 0, numCong := 0 }

/-- tcp_nice_cong_avoid of tcp_nice.c. -/
def tcp_nice_cong_avoid (limited cwr : Bool) (tp : Tcp) (s : nice)
    (ack acked : Nat) : Tcp × nice :=
  let tp1 := (nice_pace tp s).1
  let s1 := (nice_pace tp s).2
  if ¬ s1.doing_nice_now then nice_reno_blend limited tp1 s1 acked
  else if after ack s1.beg_snd_nxt then
    let s2 := { s1 with beg_snd_nxt := tp1.snd_nxt }
    let r := if s2.cntRTT ≤ 2 then nice_reno_blend limited tp1 s2 acked
             else nice_vegas cwr tp1 s2 acked
    (r.1, nice_wipe r.2)
  else if tcp_in_slow_start tp1 then ((tcp_slow_start tp1 acked).1, s1)
  else (tp1, s1)

/-! ### tcp_westwoodlp.c -/

namespace Westwood

/-- Module parameter beta of tcp_westwoodlp.c (default 3). -/
def beta : Nat := 3

end Westwood

/-- TCP_WESTWOOD_RTT_MIN, HZ/20 jiffies (50 ms at HZ = 1000). -/
def TCP_WESTWOOD_RTT_MIN : Nat := 50

/-- TCP_WESTWOOD_INIT_RTT, 20*HZ jiffies. -/
def TCP_WESTWOOD_INIT_RTT : Nat := 20000

/-- The struct westwood private block of tcp_westwoodlp.c.  first_ack and
reset_rtt_min are u8 flags used as booleans; all other fields are u32. -/
structure westwood where
  bw_ns_est : Nat
  bw_est : Nat
  rtt_win_sx : Nat
  bk : Nat
  snd_una : Nat
  cumul_ack : Nat
  accounted : Nat
  rtt : Nat
  rtt_min : Nat
  first_ack : Bool
  reset_rtt_min : Bool
  delay_min : Nat
  delay_max : Nat
  dmin_avg : Nat
  dmax_avg : Nat
  delay_loss : Nat
  deriving DecidableEq

/-- tcp_westwood_init of tcp_westwoodlp.c; now is the current tcp_time_stamp
in jiffies. -/
def tcp_westwood_init (tp : Tcp) (now : Nat) : westwood :=
  { bk := 0, bw_ns_est := 0, bw_est := 0, accounted := 0, cumul_ack := 0,
    reset_rtt_min := true, rtt_min := TCP_WESTWOOD_INIT_RTT,
    rtt := TCP_WESTWOOD_INIT_RTT, rtt_win_sx := now, snd_una := tp.snd_una,
    first_ack := true, delay_max := 0, delay_min := 0,
    dmin_avg := 0, dmax_avg := 0, delay_loss := 1 }

/-- westwood_do_filter of tcp_westwoodlp.c: ((7 * a) + b) >> 3 in u32. -/
def westwood_do_filter (a b : Nat) : Nat := (7 * a + b) % U32 / 8

/-- westwood_filter of tcp_westwoodlp.c. -/
def westwood_filter (w : westwood) (delta : Nat) : westwood :=
  if w.bw_ns_est = 0 ∧ w.bw_est = 0 then
    let e := w.bk / delta
    { w with bw_ns_est := e, bw_est := e }
  else
    let ns := westwood_do_filter w.bw_ns_est (w.bk / delta)
    { w with bw_ns_est := ns, bw_est := westwood_do_filter w.bw_est ns }

/-- tcp_westwood_pkts_acked of tcp_westwoodlp.c; rtt is the s32 sample in
microseconds. -/
def tcp_westwood_pkts_acked (w : westwood) (rtt : Int) : westwood :=
  if 0 < rtt then { w with rtt := usecs_to_jiffies rtt.toNat } else w

/-- westwood_update_window of tcp_westwoodlp.c.  delta is the s32 difference
tcp_time_stamp - rtt_win_sx, compared (converted to u32) against
max(rtt, TCP_WESTWOOD_RTT_MIN). -/
def westwood_update_window (tp : Tcp) (w : westwood) (now : Nat) : westwood :=
  let delta := sub32 now w.rtt_win_sx
  let w1 := if w.first_ack then { w with snd_una := tp.snd_una, first_ack := false }
            else w
  if w1.rtt ≠ 0 ∧ max w1.rtt TCP_WESTWOOD_RTT_MIN < delta then
    let w2 := westwood_filter w1 delta
    { w2 with bk := 0, rtt_win_sx := now }
  else w1

/-- westwood_update_delay of tcp_westwoodlp.c: 3/4-old + 1/4-new weighted
filter, seeding rtt_avg with rtt << 2 when it is still 0 or 1; the
intermediate subtraction rtt - (rtt_avg >> 2) is u32 and may wrap. -/
def westwood_update_delay (rtt rtt_avg : Nat) : Nat :=
  if rtt_avg ≠ 0 ∧ rtt_avg ≠ 1 then (rtt_avg + sub32 rtt (rtt_avg / 4)) % U32
  else rtt * 4 % U32

/-- update_rtt_min of tcp_westwoodlp.c. -/
def update_rtt_min (w : westwood) : westwood :=
  if w.reset_rtt_min then { w with rtt_min := w.rtt, reset_rtt_min := false }
  else { w with rtt_min := min w.rtt w.rtt_min }

/-- westwood_fast_bw of tcp_westwoodlp.c. -/
def westwood_fast_bw (tp : Tcp) (w : westwood) (now : Nat) : westwood :=
  let w1 := westwood_update_window tp w now
  let w2 := { w1 with bk := (w1.bk + sub32 tp.snd_una w1.snd_una) % U32,
                      snd_una := tp.snd_una }
  update_rtt_min w2

/-- westwood_acked_count of tcp_westwoodlp.c; the returned cumul_ack is
stored in the cumul_ack field. -/
def westwood_acked_count (tp : Tcp) (w : westwood) : westwood :=
  let c0 := sub32 tp.snd_una w.snd_una
  let p := if c0 = 0 then (tp.mss_cache, (w.accounted + tp.mss_cache) % U32)
           else (c0, w.accounted)
  let q := if tp.mss_cache < p.1 then
             if p.1 ≤ p.2 then (tp.mss_cache, sub32 p.2 p.1)
             else (sub32 p.1 p.2, 0)
           else p
  { w with cumul_ack := q.1, accounted := q.2, snd_una := tp.snd_una }

/-- tcp_westwood_bw_rttmin of tcp_westwoodlp.c: max(bw_est * rtt_min / mss, 2)
with a wrapping u32 product. -/
def tcp_westwood_bw_rttmin (tp : Tcp) (w : westwood) : Nat :=
  max (w.bw_est * w.rtt_min % U32 / tp.mss_cache) 2

/-- tcp_westwood_ack of tcp_westwoodlp.c; slowpath tells whether the
CA_ACK_SLOWPATH flag is set. -/
def tcp_westwood_ack (tp : Tcp) (w : westwood) (now : Nat) (slowpath : Bool) :
    westwood :=
  if slowpath then
    let w1 := westwood_update_window tp w now
    let w2 := westwood_acked_count tp w1
    let w3 := { w2 with bk := (w2.bk + w2.cumul_ack) % U32 }
    let w4 := update_rtt_min w3
    let w5 := if w4.delay_min = 0 ∧ w4.delay_max = 0 ∧ w4.rtt ≠ TCP_WESTWOOD_INIT_RTT
              then { w4 with delay_min := w4.rtt, delay_max := w4.rtt } else w4
    if w5.delay_max < w5.rtt then { w5 with delay_max := w5.rtt }
    else if w5.rtt < w5.delay_min then { w5 with delay_min := w5.rtt }
    else w5
  else westwood_fast_bw tp w now

/-- Guard of the long-run-average EWR branch of tcp_westwood_cong_avoid:
dmin_avg != dmax_avg and dmax_avg != 0. -/
def ewr_avg_cond (w : westwood) : Bool :=
  decide (w.dmin_avg ≠ w.dmax_avg ∧ w.dmax_avg ≠ 0)

/-- Guard of the raw delay_min/delay_max envelope EWR branch of
tcp_westwood_cong_avoid: delay_min != delay_max, delay_max != 0 and the
connection is not in slow start. -/
def ewr_raw_cond (tp : Tcp) (w : westwood) : Bool :=
  decide (w.delay_min ≠ w.delay_max ∧ w.delay_max ≠ 0 ∧
          tcp_in_slow_start tp = false)

/-- queue_length of tcp_westwood_cong_avoid: snd_cwnd - bw_est*rtt_min/advmss
in u32 arithmetic. -/
def ewr_queue_length (tp : Tcp) (w : westwood) : Nat :=
  sub32 tp.snd_cwnd (w.bw_est * w.rtt_min % U32 / tp.advmss)

/-- The EWR threshold expression of tcp_westwood_cong_avoid, with dsmall and
dbig standing for the pair dmin_avg/dmax_avg or delay_min/delay_max of the
branch that computes it; every product is a wrapping u32 multiply and every
subtraction from 100 is u32. -/
def ewr_thresh_formula (w : westwood) (rtt0 dsmall dbig : Nat) : Nat :=
  Westwood.beta * sub32 100 (100 * (rtt0 * 4 % U32) % U32 / w.delay_loss) % U32 / 100 *
    sub32 100 (100 * dsmall % U32 / dbig) % U32 / 100

/-- tcp_westwood_cong_avoid of tcp_westwoodlp.c. -/
def tcp_westwood_cong_avoid (limited : Bool) (tp : Tcp) (w : westwood)
    (acked : Nat) : Tcp × westwood :=
  let rtt0 := if 1 < w.delay_loss then w.rtt else 0
  let p := if ewr_avg_cond w then
             (ewr_queue_length tp w, ewr_thresh_formula w rtt0 w.dmin_avg w.dmax_avg)
           else if ewr_raw_cond tp w then
             (ewr_queue_length tp w, ewr_thresh_formula w rtt0 w.delay_min w.delay_max)
           else (0, 0)
  if p.2 < p.1 then
    let bwr := tcp_westwood_bw_rttmin tp w
    ({ tp with snd_cwnd := bwr, snd_ssthresh := bwr },
     { w with dmin_avg := westwood_update_delay w.delay_min w.dmin_avg,
              dmax_avg := westwood_update_delay w.delay_max w.dmax_avg,
              delay_max := w.rtt, delay_min := w.rtt })
  else (tcp_reno_cong_avoid limited tp acked, w)

/-- tcp_westwood_event of tcp_westwoodlp.c. -/
def tcp_westwood_event (tp : Tcp) (w : westwood) (ev : CaEvent) : Tcp × westwood :=
  match ev with
  | CaEvent.complete_cwr =>
      let bwr := tcp_westwood_bw_rttmin tp w
      ({ tp with snd_cwnd := bwr, snd_ssthresh := bwr }, w)
  | CaEvent.loss =>
      ({ tp with snd_ssthresh := tcp_westwood_bw_rttmin tp w },
       { w with delay_loss := westwood_update_delay w.rtt w.delay_loss,
                reset_rtt_min := true })
  | _ => (tp, w)

/-! ### Reachable engine states

Each engine's private block starts from its init callback and evolves only
through the module's callbacks; RTT samples carry the s32 range bound. -/

/-- States of the struct nice block reachable through the tcp_nice callbacks. -/
inductive NReach : nice → Prop where
  | start : ∀ tp, NReach (tcp_nice_init tp nice0)
  | init : ∀ tp s, NReach s → NReach (tcp_nice_init tp s)
  | pkts : ∀ s rtt, NReach s → rtt ≤ 2147483647 → NReach (tcp_nice_pkts_acked s rtt)
  | state : ∀ tp s b, NReach s → NReach (tcp_nice_state tp s b)
  | event : ∀ tp s ev, NReach s → NReach (tcp_nice_cwnd_event tp s ev)
  | ca : ∀ limited cwr tp s ack acked, NReach s →
      NReach (tcp_nice_cong_avoid limited cwr tp s ack acked).2

/-- States of the struct westwood block reachable through the tcp_westwoodlp
callbacks. -/
inductive WReach : westwood → Prop where
  | init : ∀ tp now, WReach (tcp_westwood_init tp now)
  | pkts : ∀ w rtt, WReach w → rtt ≤ 2147483647 → WReach (tcp_westwood_pkts_acked w rtt)
  | ack : ∀ tp w now sp, WReach w → WReach (tcp_westwood_ack tp w now sp)
  | ca : ∀ limited tp w acked, WReach w →
      WReach (tcp_westwood_cong_avoid limited tp w acked).2
  | event : ∀ tp w ev, WReach w → WReach (tcp_westwood_event tp w ev).2

/-- The single pacing tick on the combined host/engine state, used to state
periodicity of the fractional-window pacer. -/
def niceStep (p : Tcp × nice) : Tcp × nice := nice_pace p.1 p.2

/-- A generic host tcp state used by the concrete scenarios below. -/
def tp0 : Tcp :=
  { snd_cwnd := 10, snd_ssthresh := 5, snd_cwnd_cnt := 0, snd_cwnd_clamp := 100,
    snd_nxt := 0, snd_una := 0, mss_cache := 1460, advmss := 1460 }

/-- Range invariant maintained for reachable nice states: the two Vegas-
round divisors are always positive. -/
def NInv (s : nice) : Prop := 1 ≤ s.minRTT ∧ 1 ≤ s.baseRTT

/-- Range invariant maintained for reachable westwood states: the filtered
rtt is a positive jiffies value within the range usecs_to_jiffies can
produce from an s32 sample, and delay_loss (an EWR divisor) stays positive
and small enough that its update never wraps. -/
def WInv (w : westwood) : Prop :=
  1 ≤ w.rtt ∧ w.rtt ≤ 2147484 ∧ 1 ≤ w.delay_loss ∧ w.delay_loss ≤ 8589939

/-- Nice state with a mid-round RTT history, used to exhibit the one-unit
offset in the congestion-detector comparison. -/
def nice_c5s : nice :=
  { nice0 with cntRTT := 1, minRTT := 150, maxRTT := 200, baseRTT := 100 }

/-- Active nice state in sub-unit pacing mode on a waiting tick. -/
def nice_c2s : nice :=
  { nice0 with beg_snd_nxt := 100, minRTT := 2147483647, baseRTT := 2147483647,
               doing_nice_now := true, fractional_cwnd := 4, nice_timer := 1 }

/-- Host state in slow start whose ack does not cross the round edge. -/
def tp_c2 : Tcp := { tp0 with snd_cwnd := 5, snd_ssthresh := 10, snd_nxt := 100 }

/-- Combined state just after a pacing burst (cwnd 2, timer 1). -/
def p_c2 : Tcp × nice :=
  ({ tp0 with snd_cwnd := 2 }, { nice0 with fractional_cwnd := 4, nice_timer := 1 })

/-- Active nice state in sub-unit pacing mode on a waiting tick, used to
exercise the passthrough conjunct of the pacing theorem. -/
def nice_c2w : nice :=
  { nice0 with beg_snd_nxt := 100, doing_nice_now := true,
               fractional_cwnd := 4, nice_timer := 1 }

/-- Host state whose paced cwnd (0) is not in slow start and whose ack does
not cross the round edge. -/
def tp_c2w : Tcp := { tp0 with snd_cwnd := 5, snd_ssthresh := 0, snd_nxt := 100 }

/-- Active nice state at the pacing burst tick with fractional_cwnd at the
configured maximum and a round of samples showing large queuing delay. -/
def nice_c3s : nice :=
  { nice0 with cntRTT := 3, minRTT := 10, maxRTT := 20, baseRTT := 1,
               doing_nice_now := true, fractional_cwnd := 96, nice_timer := 96 }

/-- Host state for the fractional_cwnd cap counterexample. -/
def tp_c3 : Tcp := { tp0 with snd_cwnd := 7, snd_ssthresh := 2, snd_nxt := 10 }

/-- Nice state with fractional_cwnd strictly inside the permitted range. -/
def nice_c3w : nice := { nice0 with fractional_cwnd := 50 }

/-- Active nice state in sub-unit mode with enough congestion events to
trigger the multiplicative-decrease branch. -/
def nice_c4s : nice :=
  { nice0 with cntRTT := 3, minRTT := 10, maxRTT := 20, baseRTT := 1, numCong := 2,
               doing_nice_now := true, fractional_cwnd := 32, nice_timer := 32 }

/-- Host state for the multiplicative-decrease counterexample. -/
def tp_c4 : Tcp := { tp0 with snd_cwnd := 7, snd_ssthresh := 2, snd_nxt := 10 }

/-- Active nice state out of sub-unit mode with enough congestion events to
trigger the cwnd-halving branch. -/
def nice_c4w : nice :=
  { nice0 with cntRTT := 3, minRTT := 10, maxRTT := 20, baseRTT := 1, numCong := 5,
               doing_nice_now := true, fractional_cwnd := 2 }

/-- Host state (cwnd 9, not in slow start) for the halving witness. -/
def tp_c4w : Tcp := { tp0 with snd_cwnd := 9, snd_ssthresh := 2, snd_nxt := 10 }

/-- Active nice state about to close a 0-sample round while in slow start. -/
def nice_c8s : nice :=
  { nice0 with minRTT := 2147483647, baseRTT := 2147483647,
               doing_nice_now := true, fractional_cwnd := 2 }

/-- Slow-start host state for the idempotence counterexample. -/
def tp_c8 : Tcp := { tp0 with snd_cwnd := 2, snd_ssthresh := 10, snd_nxt := 10 }

/-- Active nice state about to close a 0-sample round out of slow start. -/
def nice_c8w : nice :=
  { nice0 with minRTT := 2147483647, baseRTT := 2147483647,
               doing_nice_now := true, fractional_cwnd := 2 }

/-- Congestion-avoidance host state for the idempotence witness. -/
def tp_c8w : Tcp := { tp0 with snd_cwnd := 20, snd_ssthresh := 5, snd_nxt := 10 }

/-- Nice state after three maximal RTT samples in the same round: cntRTT is
3 yet minRTT and baseRTT still sit at the 0x7fffffff sentinel. -/
def nice_c7s : nice :=
  tcp_nice_pkts_acked
    (tcp_nice_pkts_acked
      (tcp_nice_pkts_acked (tcp_nice_init tp0 nice0) 2147483646) 2147483646)
    2147483646

/-- Host state (not in slow start) driving a Vegas round on nice_c7s. -/
def tp_c7 : Tcp := { tp0 with snd_cwnd := 10, snd_ssthresh := 3, snd_nxt := 10 }

/-- Westwood state with the raw delay envelope of the EWR scenario of the
specification (delay_min 10, delay_max 40, no completed EWR window). -/
def w_c9 : westwood :=
  { tcp_westwood_init tp0 0 with delay_min := 10, delay_max := 40, rtt := 30 }

/-- Host state in slow start for the EWR branch counterexample. -/
def tp_c9 : Tcp := { tp0 with snd_cwnd := 3, snd_ssthresh := 10 }

/-- Westwood state after one 100 ms RTT sample from init. -/
def w_c10a : westwood := tcp_westwood_pkts_acked (tcp_westwood_init tp0 0) 100000

/-- Westwood state after the first Loss event. -/
def w_c10b : westwood := (tcp_westwood_event tp0 w_c10a CaEvent.loss).2

/-- Westwood state after a further 120 ms RTT sample. -/
def w_c10c : westwood := tcp_westwood_pkts_acked w_c10b 120000

/-- Westwood state after the second Loss event. -/
def w_c10d : westwood := (tcp_westwood_event tp0 w_c10c CaEvent.loss).2

/-- Reachable westwood state after one sample and one slow-path ack. -/
def w_c7a : westwood :=
  tcp_westwood_ack tp0 (tcp_westwood_pkts_acked (tcp_westwood_init tp0 0) 100000) 0 true

/-- Reachable westwood state whose raw delay envelope is non-degenerate. -/
def w_c7b : westwood :=
  tcp_westwood_ack tp0 (tcp_westwood_pkts_acked w_c7a 200000) 0 true

/-! ### Field-preservation lemmas for the nice callbacks -/

@[simp] lemma nice_pace_fst_ssthresh (tp : Tcp) (s : nice) :
    (nice_pace tp s).1.snd_ssthresh = tp.snd_ssthresh := by
  unfold nice_pace; split_ifs <;> rfl

@[simp] lemma nice_pace_fst_nxt (tp : Tcp) (s : nice) :
    (nice_pace tp s).1.snd_nxt = tp.snd_nxt := by
  unfold nice_pace; split_ifs <;> rfl

@[simp] lemma nice_pace_fst_clamp (tp : Tcp) (s : nice) :
    (nice_pace tp s).1.snd_cwnd_clamp = tp.snd_cwnd_clamp := by
  unfold nice_pace; split_ifs <;> rfl

@[simp] lemma nice_pace_snd_doing (tp : Tcp) (s : nice) :
    (nice_pace tp s).2.doing_nice_now = s.doing_nice_now := by
  unfold nice_pace; split_ifs <;> rfl

@[simp] lemma nice_pace_snd_beg (tp : Tcp) (s : nice) :
    (nice_pace tp s).2.beg_snd_nxt = s.beg_snd_nxt := by
  unfold nice_pace; split_ifs <;> rfl

@[simp] lemma nice_pace_snd_cntRTT (tp : Tcp) (s : nice) :
    (nice_pace tp s).2.cntRTT = s.cntRTT := by
  unfold nice_pace; split_ifs <;> rfl

@[simp] lemma nice_pace_snd_minRTT (tp : Tcp) (s : nice) :
    (nice_pace tp s).2.minRTT = s.minRTT := by
  unfold nice_pace; split_ifs <;> rfl

@[simp] lemma nice_pace_snd_maxRTT (tp : Tcp) (s : nice) :
    (nice_pace tp s).2.maxRTT = s.maxRTT := by
  unfold nice_pace; split_ifs <;> rfl

@[simp] lemma nice_pace_snd_baseRTT (tp : Tcp) (s : nice) :
    (nice_pace tp s).2.baseRTT = s.baseRTT := by
  unfold nice_pace; split_ifs <;> rfl

@[simp] lemma nice_pace_snd_numCong (tp : Tcp) (s : nice) :
    (nice_pace tp s).2.numCong = s.numCong := by
  unfold nice_pace; split_ifs <;> rfl

@[simp] lemma nice_pace_snd_fwnd (tp : Tcp) (s : nice) :
    (nice_pace tp s).2.fractional_cwnd = s.fractional_cwnd := by
  unfold nice_pace; split_ifs <;> rfl

@[simp] lemma reno_frac_snd_doing (limited : Bool) (tp : Tcp) (s : nice) (acked : Nat) :
    (tcp_reno_fractional_ca limited tp s acked).2.doing_nice_now = s.doing_nice_now := by
  unfold tcp_reno_fractional_ca; dsimp only; split_ifs <;> rfl

@[simp] lemma reno_frac_snd_beg (limited : Bool) (tp : Tcp) (s : nice) (acked : Nat) :
    (tcp_reno_fractional_ca limited tp s acked).2.beg_snd_nxt = s.beg_snd_nxt := by
  unfold tcp_reno_fractional_ca; dsimp only; split_ifs <;> rfl

@[simp] lemma reno_frac_snd_minRTT (limited : Bool) (tp : Tcp) (s : nice) (acked : Nat) :
    (tcp_reno_fractional_ca limited tp s acked).2.minRTT = s.minRTT := by
  unfold tcp_reno_fractional_ca; dsimp only; split_ifs <;> rfl

@[simp] lemma reno_frac_snd_baseRTT (limited : Bool) (tp : Tcp) (s : nice) (acked : Nat) :
    (tcp_reno_fractional_ca limited tp s acked).2.baseRTT = s.baseRTT := by
  unfold tcp_reno_fractional_ca; dsimp only; split_ifs <;> rfl

@[simp] lemma blend_snd_doing (limited : Bool) (tp : Tcp) (s : nice) (acked : Nat) :
    (nice_reno_blend limited tp s acked).2.doing_nice_now = s.doing_nice_now := by
  unfold nice_reno_blend; split_ifs <;> simp

@[simp] lemma blend_snd_beg (limited : Bool) (tp : Tcp) (s : nice) (acked : Nat) :
    (nice_reno_blend limited tp s acked).2.beg_snd_nxt = s.beg_snd_nxt := by
  unfold nice_reno_blend; split_ifs <;> simp

@[simp] lemma blend_snd_minRTT (limited : Bool) (tp : Tcp) (s : nice) (acked : Nat) :
    (nice_reno_blend limited tp s acked).2.minRTT = s.minRTT := by
  unfold nice_reno_blend; split_ifs <;> simp

@[simp] lemma blend_snd_baseRTT (limited : Bool) (tp : Tcp) (s : nice) (acked : Nat) :
    (nice_reno_blend limited tp s acked).2.baseRTT = s.baseRTT := by
  unfold nice_reno_blend; split_ifs <;> simp

@[simp] lemma vegas_core_snd_doing (tp : Tcp) (s : nice) (acked : Nat) :
    (nice_vegas_core tp s acked).2.doing_nice_now = s.doing_nice_now := by
  unfold nice_vegas_core; dsimp only; split_ifs <;> rfl

@[simp] lemma vegas_core_snd_beg (tp : Tcp) (s : nice) (acked : Nat) :
    (nice_vegas_core tp s acked).2.beg_snd_nxt = s.beg_snd_nxt := by
  unfold nice_vegas_core; dsimp only; split_ifs <;> rfl

@[simp] lemma vegas_core_snd_minRTT (tp : Tcp) (s : nice) (acked : Nat) :
    (nice_vegas_core tp s acked).2.minRTT = s.minRTT := by
  unfold nice_vegas_core; dsimp only; split_ifs <;> rfl

@[simp] lemma vegas_core_snd_baseRTT (tp : Tcp) (s : nice) (acked : Nat) :
    (nice_vegas_core tp s acked).2.baseRTT = s.baseRTT := by
  unfold nice_vegas_core; dsimp only; split_ifs <;> rfl

@[simp] lemma vegas_snd (cwr : Bool) (tp : Tcp) (s : nice) (acked : Nat) :
    (nice_vegas cwr tp s acked).2 = (nice_vegas_core tp s acked).2 := rfl

@[simp] lemma wipe_doing (s : nice) :
    (nice_wipe s).doing_nice_now = s.doing_nice_now := rfl

@[simp] lemma wipe_beg (s : nice) : (nice_wipe s).beg_snd_nxt = s.beg_snd_nxt := rfl

@[simp] lemma wipe_baseRTT (s : nice) : (nice_wipe s).baseRTT = s.baseRTT := rfl

@[simp] lemma wipe_fwnd (s : nice) :
    (nice_wipe s).fractional_cwnd = s.fractional_cwnd := rfl

lemma nice_ca_doing (limited cwr : Bool) (tp : Tcp) (s : nice) (ack acked : Nat) :
    (tcp_nice_cong_avoid limited cwr tp s ack acked).2.doing_nice_now =
      s.doing_nice_now := by
  unfold tcp_nice_cong_avoid
  dsimp only
  split_ifs <;> simp

lemma nice_ca_round_beg (limited cwr : Bool) (tp : Tcp) (s : nice) (ack acked : Nat)
    (hd : s.doing_nice_now = true) (ha : after ack s.beg_snd_nxt = true) :
    (tcp_nice_cong_avoid limited cwr tp s ack acked).2.beg_snd_nxt = tp.snd_nxt := by
  unfold tcp_nice_cong_avoid
  simp [hd, ha]
  split_ifs <;> simp

lemma nice_pace_noop (tp : Tcp) (s : nice) (hf : ¬ 2 < s.fractional_cwnd) :
    nice_pace tp s = (tp, s) := by
  unfold nice_pace
  rw [if_neg (by tauto), if_neg hf]

lemma nice_ca_noop (limited cwr : Bool) (tp : Tcp) (s : nice) (ack acked : Nat)
    (hf : ¬ 2 < s.fractional_cwnd) (hd : s.doing_nice_now = true)
    (ha : after ack s.beg_snd_nxt = false) (hs : tcp_in_slow_start tp = false) :
    tcp_nice_cong_avoid limited cwr tp s ack acked = (tp, s) := by
  unfold tcp_nice_cong_avoid
  rw [nice_pace_noop tp s hf]
  simp [hd, ha, hs]

lemma nice_ca_round (limited cwr : Bool) (tp : Tcp) (s : nice) (ack acked : Nat)
    (hd : s.doing_nice_now = true) (ha : after ack s.beg_snd_nxt = true)
    (hc : ¬ s.cntRTT ≤ 2) :
    tcp_nice_cong_avoid limited cwr tp s ack acked =
      ((nice_vegas cwr (nice_pace tp s).1
          { (nice_pace tp s).2 with beg_snd_nxt := (nice_pace tp s).1.snd_nxt } acked).1,
       nice_wipe (nice_vegas cwr (nice_pace tp s).1
          { (nice_pace tp s).2 with beg_snd_nxt := (nice_pace tp s).1.snd_nxt } acked).2) := by
  unfold tcp_nice_cong_avoid
  simp [hd, ha, hc]

/-! ### C1: baseRTT monotonic minimum and per-sample minRTT/maxRTT bounds -/

/-- C1 counterexample: immediately after the first sample of a round with
raw value 5 is processed, minRTT is 6 (the engine stores rtt + 1), so
minRTT is not bounded by the raw sample as the claim states. -/
theorem nice_minRTT_exceeds_raw_sample :
    (tcp_nice_pkts_acked (tcp_nice_init tp0 nice0) 5).minRTT = 6 ∧
    ¬ (tcp_nice_pkts_acked (tcp_nice_init tp0 nice0) 5).minRTT ≤ 5 := by
  decide

/-- C1 amended: over any RTT-sample event, baseRTT is non-increasing, and
immediately after a non-negative sample rtt is processed the round
statistics satisfy minRTT ≤ rtt + 1 and rtt + 1 ≤ maxRTT, rtt + 1 being
the offset value the engine actually processes. -/
theorem nice_rtt_sample_bounds (s : nice) (rtt_us : Int) :
    (tcp_nice_pkts_acked s rtt_us).baseRTT ≤ s.baseRTT ∧
    (0 ≤ rtt_us →
      (tcp_nice_pkts_acked s rtt_us).minRTT ≤ rtt_us.toNat + 1 ∧
      rtt_us.toNat + 1 ≤ (tcp_nice_pkts_acked s rtt_us).maxRTT) := by
  unfold tcp_nice_pkts_acked
  by_cases h : rtt_us < 0
  · rw [if_pos h]
    exact ⟨le_refl _, fun h2 => absurd h2 (by omega)⟩
  · rw [if_neg h]
    refine ⟨?_, fun _ => ⟨?_, ?_⟩⟩
    · dsimp only
      split_ifs <;> omega
    · dsimp only
      exact min_le_right _ _
    · dsimp only
      exact le_max_right _ _

/-- C1 witness: the amended bounds instantiated on a fresh state and the
sample 5. -/
theorem nice_rtt_sample_bounds_witness :
    (tcp_nice_pkts_acked (tcp_nice_init tp0 nice0) 5).baseRTT ≤
      (tcp_nice_init tp0 nice0).baseRTT ∧
    (tcp_nice_pkts_acked (tcp_nice_init tp0 nice0) 5).minRTT ≤ (5 : Int).toNat + 1 ∧
    (5 : Int).toNat + 1 ≤ (tcp_nice_pkts_acked (tcp_nice_init tp0 nice0) 5).maxRTT :=
  ⟨(nice_rtt_sample_bounds (tcp_nice_init tp0 nice0) 5).1,
   ((nice_rtt_sample_bounds (tcp_nice_init tp0 nice0) 5).2 (by decide)).1,
   ((nice_rtt_sample_bounds (tcp_nice_init tp0 nice0) 5).2 (by decide)).2⟩

/-! ### C5: the per-sample congestion detector -/

/-- C5 counterexample: with baseRTT 100 and maxRTT 200 at comparison time,
the claimed threshold is (80*100 + 20*200)/100 = 120; the sample 120 does
not exceed it, yet the engine increments numCong because it compares the
offset value 121. -/
theorem nice_congestion_flag_off_by_one :
    (tcp_nice_pkts_acked nice_c5s 120).numCong = 1 ∧ nice_c5s.numCong = 0 ∧
    (tcp_nice_pkts_acked nice_c5s 120).baseRTT = 100 ∧
    (tcp_nice_pkts_acked nice_c5s 120).maxRTT = 200 ∧
    ¬ ((100 - threshold) * 100 + threshold * 200) / 100 < 120 := by
  decide

/-- C5 amended: for every non-negative sample rtt, numCong is incremented
(modulo 256, it is a u8) iff the processed value rtt + 1 exceeds
((100 - threshold) * baseRTT + (threshold * maxRTT mod 2^32)) / 100, taken
at the post-update values of baseRTT and maxRTT; otherwise it is unchanged. -/
lemma nice_pkts_numCong_eq (s : nice) (rtt_us : Int) (h : ¬ rtt_us < 0) :
    (tcp_nice_pkts_acked s rtt_us).numCong =
      if ((100 - threshold) * (tcp_nice_pkts_acked s rtt_us).baseRTT +
          (threshold * (tcp_nice_pkts_acked s rtt_us).maxRTT) % U32) / 100 <
          rtt_us.toNat + 1
      then (s.numCong + 1) % U8 else s.numCong := by
  unfold tcp_nice_pkts_acked
  simp only [if_neg h]

theorem nice_congestion_flag_iff (s : nice) (rtt_us : Int) (h : 0 ≤ rtt_us) :
    (((100 - threshold) * (tcp_nice_pkts_acked s rtt_us).baseRTT +
        (threshold * (tcp_nice_pkts_acked s rtt_us).maxRTT) % U32) / 100 <
        rtt_us.toNat + 1 →
      (tcp_nice_pkts_acked s rtt_us).numCong = (s.numCong + 1) % U8) ∧
    (¬ ((100 - threshold) * (tcp_nice_pkts_acked s rtt_us).baseRTT +
        (threshold * (tcp_nice_pkts_acked s rtt_us).maxRTT) % U32) / 100 <
        rtt_us.toNat + 1 →
      (tcp_nice_pkts_acked s rtt_us).numCong = s.numCong) := by
  rw [nice_pkts_numCong_eq s rtt_us (by omega)]
  split_ifs with hcmp
  · exact ⟨fun _ => rfl, fun hn => absurd hcmp hn⟩
  · exact ⟨fun hy => absurd hy hcmp, fun _ => rfl⟩

/-- C5 witness: the amended equivalence instantiated on nice_c5s and the
sample 120, where the comparison succeeds and numCong becomes 1. -/
theorem nice_congestion_flag_iff_witness :
    (tcp_nice_pkts_acked nice_c5s 120).numCong = (nice_c5s.numCong + 1) % U8 :=
  (nice_congestion_flag_iff nice_c5s 120 (by decide)).1 (by decide)

/-! ### C6: rejection of invalid RTT samples -/

/-- C6 counterexample: a zero RTT sample is not skipped by the Nice
handler: it increments cntRTT and changes the state. -/
theorem nice_zero_rtt_updates_state :
    (tcp_nice_pkts_acked (tcp_nice_init tp0 nice0) 0).cntRTT = 1 ∧
    (tcp_nice_init tp0 nice0).cntRTT = 0 ∧
    tcp_nice_pkts_acked (tcp_nice_init tp0 nice0) 0 ≠ tcp_nice_init tp0 nice0 := by
  decide

/-- C6 amended: negative samples are no-ops for both engines and a zero
sample is a no-op for the Westwood handler; the Nice handler instead
processes a zero sample as the value 1, updating the round state
(cntRTT is incremented). -/
theorem pkts_acked_invalid_sample_handling :
    (∀ (s : nice) (rtt_us : Int), rtt_us < 0 → tcp_nice_pkts_acked s rtt_us = s) ∧
    (∀ (w : westwood) (rtt : Int), rtt ≤ 0 → tcp_westwood_pkts_acked w rtt = w) ∧
    (∀ s : nice, (tcp_nice_pkts_acked s 0).cntRTT = (s.cntRTT + 1) % U16) := by
  refine ⟨fun s r h => ?_, fun w r h => ?_, fun s => ?_⟩
  · unfold tcp_nice_pkts_acked
    rw [if_pos h]
  · unfold tcp_westwood_pkts_acked
    rw [if_neg (by omega)]
  · unfold tcp_nice_pkts_acked
    rw [if_neg (by omega)]

/-- C6 witness: the amended behaviour instantiated on concrete states and
the samples -3 (both engines) and 0. -/
theorem pkts_acked_invalid_sample_handling_witness :
    tcp_nice_pkts_acked nice_c5s (-3) = nice_c5s ∧
    tcp_westwood_pkts_acked (tcp_westwood_init tp0 0) (-3) = tcp_westwood_init tp0 0 ∧
    (tcp_nice_pkts_acked nice_c5s 0).cntRTT = (nice_c5s.cntRTT + 1) % U16 :=
  ⟨pkts_acked_invalid_sample_handling.1 nice_c5s (-3) (by decide),
   pkts_acked_invalid_sample_handling.2.1 (tcp_westwood_init tp0 0) (-3) (by decide),
   pkts_acked_invalid_sample_handling.2.2 nice_c5s⟩

/-! ### C9: EWR branch selection -/

/-- C9 counterexample: in the specified state (delay_min 10, delay_max 40,
dmin_avg = dmax_avg = 0) but with the connection in slow start, neither
EWR branch guard holds, so no threshold is computed via the raw envelope
branch and the decision falls through to Reno. -/
theorem westwood_ewr_slow_start_no_threshold :
    w_c9.delay_min = 10 ∧ w_c9.delay_max = 40 ∧ w_c9.dmin_avg = 0 ∧
    w_c9.dmax_avg = 0 ∧ tcp_in_slow_start tp_c9 = true ∧
    ewr_avg_cond w_c9 = false ∧ ewr_raw_cond tp_c9 w_c9 = false ∧
    tcp_westwood_cong_avoid true tp_c9 w_c9 1 =
      (tcp_reno_cong_avoid true tp_c9 1, w_c9) := by
  decide

/-- C9 amended: in any state with delay_min 10, delay_max 40 and
dmin_avg = dmax_avg = 0 in which the connection is not in slow start, the
EWR threshold is computed via the raw delay_min/delay_max envelope branch
and never via the dmin_avg/dmax_avg branch (whose guard requires
dmax_avg different from 0). -/
theorem westwood_ewr_raw_branch (tp : Tcp) (w : westwood)
    (h1 : w.delay_min = 10) (h2 : w.delay_max = 40) (h3 : w.dmin_avg = 0)
    (h4 : w.dmax_avg = 0) (h5 : tcp_in_slow_start tp = false) :
    ewr_avg_cond w = false ∧ ewr_raw_cond tp w = true := by
  unfold ewr_avg_cond ewr_raw_cond
  simp [h1, h2, h3, h4, h5]

/-- C9 witness: the amended branch selection instantiated on w_c9 and a
congestion-avoidance host state. -/
theorem westwood_ewr_raw_branch_witness :
    ewr_avg_cond w_c9 = false ∧ ewr_raw_cond tp0 w_c9 = true :=
  westwood_ewr_raw_branch tp0 w_c9 (by decide) (by decide) (by decide)
    (by decide) (by decide)

/-! ### C2: fractional-window pacing -/

/-- C2 counterexample: in sub-unit mode (fractional_cwnd 4) on a waiting
tick (nice_timer 1, different from 4) the claim requires the observed cwnd
to be exactly 0; but when the same call then runs its slow-start path the
final cwnd written is 1. -/
theorem nice_pacing_observed_cwnd_not_binary :
    2 < nice_c2s.fractional_cwnd ∧ nice_c2s.nice_timer ≠ nice_c2s.fractional_cwnd ∧
    (tcp_nice_cong_avoid true false tp_c2 nice_c2s 50 1).1.snd_cwnd = 1 := by
  decide

/-- C2 amended: the pacing block at the head of tcp_nice_cong_avoid is
periodic with period fractional_cwnd whenever fractional_cwnd > 2: starting
just after a burst tick (cwnd written 2, timer 1), the next
fractional_cwnd - 1 ticks write cwnd 0 while the timer counts up, and the
fractional_cwnd-th tick restores the state exactly; the cwnd value the
block writes is also the value the whole call observes whenever the engine
is sampling, the ack does not close a round and the paced state is not in
slow start (otherwise the remainder of the call may overwrite cwnd). -/
theorem nice_pacing_periodic (p : Tcp × nice)
    (h1 : 2 < p.2.fractional_cwnd) (h2 : p.2.fractional_cwnd ≤ 255)
    (h3 : p.2.nice_timer = 1) (h4 : p.1.snd_cwnd = 2) :
    (∀ k, 1 ≤ k → k < p.2.fractional_cwnd →
        (niceStep^[k] p).1.snd_cwnd = 0 ∧ (niceStep^[k] p).2.nice_timer = k + 1) ∧
    niceStep^[p.2.fractional_cwnd] p = p ∧
    (∀ (limited cwr : Bool) (tp : Tcp) (s : nice) (ack acked : Nat),
        s.doing_nice_now = true → after ack s.beg_snd_nxt = false →
        tcp_in_slow_start (nice_pace tp s).1 = false →
        tcp_nice_cong_avoid limited cwr tp s ack acked = nice_pace tp s) := by
  obtain ⟨tp, s⟩ := p
  dsimp only at h1 h2 h3 h4
  have key : ∀ k, 1 ≤ k → k + 1 ≤ s.fractional_cwnd →
      niceStep^[k] (tp, s) =
        ({ tp with snd_cwnd := 0 }, { s with nice_timer := k + 1 }) := by
    intro k
    induction k with
    | zero => intro hk _; omega
    | succ n ih =>
      intro _ hlt
      by_cases hn : n = 0
      · subst hn
        rw [Function.iterate_one]
        unfold niceStep nice_pace
        dsimp only
        rw [if_neg (by rintro ⟨hh, ht⟩; omega), if_pos h1]
        have ht2 : (s.nice_timer + 1) % U8 = 0 + 1 + 1 := by
          rw [h3]; rfl
        rw [ht2]
      · have ihn := ih (by omega) (by omega)
        rw [Function.iterate_succ_apply', ihn]
        unfold niceStep nice_pace
        dsimp only
        rw [if_neg (by rintro ⟨hh, ht⟩; omega), if_pos h1]
        have ht2 : (n + 1 + 1) % U8 = n + 1 + 1 :=
          Nat.mod_eq_of_lt (by unfold U8; omega)
        rw [ht2]
  refine ⟨?_, ?_, ?_⟩
  · intro k hk1 hk2
    dsimp only at hk2 ⊢
    rw [key k hk1 (by omega)]
    exact ⟨rfl, rfl⟩
  · dsimp only
    obtain ⟨m, hm⟩ : ∃ m, s.fractional_cwnd = m + 1 :=
      ⟨s.fractional_cwnd - 1, by omega⟩
    rw [hm, Function.iterate_succ_apply', key m (by omega) (by omega)]
    unfold niceStep nice_pace
    dsimp only
    rw [if_pos ⟨h1, hm.symm⟩]
    cases tp
    cases s
    simp_all
  · intro limited cwr tp2 s2 ack acked hd ha hss
    unfold tcp_nice_cong_avoid
    dsimp only
    simp [hd, ha, hss]

/-- C2 witness: the amended periodicity instantiated on the burst state
p_c2 with fractional_cwnd 4 (tick 2 writes cwnd 0, and four ticks return
to the starting state), and the passthrough conjunct instantiated on a
sampling, non-round, non-slow-start waiting tick, where the whole call
equals the pacing block. -/
theorem nice_pacing_periodic_witness :
    (niceStep^[2] p_c2).1.snd_cwnd = 0 ∧
    (niceStep^[2] p_c2).2.nice_timer = 2 + 1 ∧
    niceStep^[p_c2.2.fractional_cwnd] p_c2 = p_c2 ∧
    tcp_nice_cong_avoid true false tp_c2w nice_c2w 50 1 = nice_pace tp_c2w nice_c2w :=
  ⟨((nice_pacing_periodic p_c2 (by decide) (by decide) (by decide) (by decide)).1
      2 (by decide) (by decide)).1,
   ((nice_pacing_periodic p_c2 (by decide) (by decide) (by decide) (by decide)).1
      2 (by decide) (by decide)).2,
   (nice_pacing_periodic p_c2 (by decide) (by decide) (by decide) (by decide)).2.1,
   (nice_pacing_periodic p_c2 (by decide) (by decide) (by decide) (by decide)).2.2
      true false tp_c2w nice_c2w 50 1 (by decide) (by decide) (by decide)⟩

/-! ### C3: bounds on fractional_cwnd -/

/-- C3 counterexample: from a state satisfying 2 ≤ fractional_cwnd ≤
max_fwnd (it equals 96), one per-ACK decision raises fractional_cwnd to 98,
violating the claimed upper bound: the decision point only checks the
bound before mutating. -/
theorem nice_fractional_cwnd_exceeds_cap :
    2 ≤ nice_c3s.fractional_cwnd ∧ nice_c3s.fractional_cwnd ≤ max_fwnd ∧
    (tcp_nice_cong_avoid true false tp_c3 nice_c3s 5 1).2.fractional_cwnd = 98 ∧
    ¬ (tcp_nice_cong_avoid true false tp_c3 nice_c3s 5 1).2.fractional_cwnd ≤
        max_fwnd := by
  decide

lemma nice_init_fwnd (tp : Tcp) (s : nice) :
    (tcp_nice_init tp s).fractional_cwnd = 2 := rfl

lemma nice_pkts_fwnd (s : nice) (rtt_us : Int) :
    (tcp_nice_pkts_acked s rtt_us).fractional_cwnd = s.fractional_cwnd := by
  unfold tcp_nice_pkts_acked; split_ifs <;> rfl

lemma nice_state_fwnd (tp : Tcp) (s : nice) (b : Bool) :
    (tcp_nice_state tp s b).fractional_cwnd = s.fractional_cwnd := by
  unfold tcp_nice_state nice_enable nice_disable; split_ifs <;> rfl

/-- C3 amended: the operations init, RTT sample, state change and cwnd
event preserve 2 ≤ fractional_cwnd ≤ max_fwnd (init forces the value 2);
the per-ACK decision point tcp_nice_cong_avoid only checks
fractional_cwnd ≤ max_fwnd before mutating it and does not bound the
result, so it can leave fractional_cwnd above max_fwnd. -/
theorem nice_fractional_cwnd_bounds_non_ca_ops (tp : Tcp) (s : nice)
    (h1 : 2 ≤ s.fractional_cwnd) (h2 : s.fractional_cwnd ≤ max_fwnd) :
    (2 ≤ (tcp_nice_init tp s).fractional_cwnd ∧
      (tcp_nice_init tp s).fractional_cwnd ≤ max_fwnd) ∧
    (∀ rtt_us : Int, 2 ≤ (tcp_nice_pkts_acked s rtt_us).fractional_cwnd ∧
      (tcp_nice_pkts_acked s rtt_us).fractional_cwnd ≤ max_fwnd) ∧
    (∀ b : Bool, 2 ≤ (tcp_nice_state tp s b).fractional_cwnd ∧
      (tcp_nice_state tp s b).fractional_cwnd ≤ max_fwnd) ∧
    (∀ ev : CaEvent, 2 ≤ (tcp_nice_cwnd_event tp s ev).fractional_cwnd ∧
      (tcp_nice_cwnd_event tp s ev).fractional_cwnd ≤ max_fwnd) := by
  refine ⟨?_, fun rtt_us => ?_, fun b => ?_, fun ev => ?_⟩
  · rw [nice_init_fwnd]; exact ⟨le_refl 2, by decide⟩
  · rw [nice_pkts_fwnd]; exact ⟨h1, h2⟩
  · rw [nice_state_fwnd]; exact ⟨h1, h2⟩
  · unfold tcp_nice_cwnd_event
    split_ifs
    · rw [nice_init_fwnd]; exact ⟨le_refl 2, by decide⟩
    · exact ⟨h1, h2⟩

/-- C3 witness: the amended preservation instantiated on a state with
fractional_cwnd 50, an RTT sample of 7, an Open state change and a
cwnd-restart event. -/
theorem nice_fractional_cwnd_bounds_non_ca_ops_witness :
    (2 ≤ (tcp_nice_pkts_acked nice_c3w 7).fractional_cwnd ∧
      (tcp_nice_pkts_acked nice_c3w 7).fractional_cwnd ≤ max_fwnd) ∧
    (2 ≤ (tcp_nice_state tp0 nice_c3w true).fractional_cwnd ∧
      (tcp_nice_state tp0 nice_c3w true).fractional_cwnd ≤ max_fwnd) ∧
    (2 ≤ (tcp_nice_cwnd_event tp0 nice_c3w CaEvent.cwnd_restart).fractional_cwnd ∧
      (tcp_nice_cwnd_event tp0 nice_c3w CaEvent.cwnd_restart).fractional_cwnd ≤
        max_fwnd) :=
  ⟨(nice_fractional_cwnd_bounds_non_ca_ops tp0 nice_c3w (by decide) (by decide)).2.1 7,
   (nice_fractional_cwnd_bounds_non_ca_ops tp0 nice_c3w (by decide) (by decide)).2.2.1
     true,
   (nice_fractional_cwnd_bounds_non_ca_ops tp0 nice_c3w (by decide) (by decide)).2.2.2
     CaEvent.cwnd_restart⟩

/-! ### C8: idempotence of a repeated round-boundary delivery -/

/-- C8 counterexample: a round-boundary ACK is delivered twice with no new
RTT samples; the first call moves cwnd from 2 to 3 and the second call,
finding the connection still in slow start, moves cwnd again to 4, so the
second call does mutate cwnd. -/
theorem nice_second_round_call_mutates_cwnd :
    after 5 nice_c8s.beg_snd_nxt = true ∧ nice_c8s.doing_nice_now = true ∧
    (tcp_nice_cong_avoid true false tp_c8 nice_c8s 5 1).1.snd_cwnd = 3 ∧
    (tcp_nice_cong_avoid true false
        (tcp_nice_cong_avoid true false tp_c8 nice_c8s 5 1).1
        (tcp_nice_cong_avoid true false tp_c8 nice_c8s 5 1).2 5 1).1.snd_cwnd = 4 := by
  decide

/-- C8 amended: delivering the same round-boundary ACK input a second time
with no new RTT samples leaves the host state and engine state entirely
unchanged, provided the ack does not exceed the send-next edge and the
state left by the first call is out of slow start and not in sub-unit
pacing mode (fractional_cwnd 2); otherwise the second call re-enters the
slow-start or pacing paths and can mutate cwnd. -/
theorem nice_round_decision_idempotent (limited cwr : Bool) (tp : Tcp) (s : nice)
    (ack acked : Nat) (hd : s.doing_nice_now = true)
    (ha : after ack s.beg_snd_nxt = true) (hn : after ack tp.snd_nxt = false)
    (hf : (tcp_nice_cong_avoid limited cwr tp s ack acked).2.fractional_cwnd = 2)
    (hs : tcp_in_slow_start (tcp_nice_cong_avoid limited cwr tp s ack acked).1 =
      false) :
    tcp_nice_cong_avoid limited cwr
        (tcp_nice_cong_avoid limited cwr tp s ack acked).1
        (tcp_nice_cong_avoid limited cwr tp s ack acked).2 ack acked =
      tcp_nice_cong_avoid limited cwr tp s ack acked := by
  have hdoing :
      (tcp_nice_cong_avoid limited cwr tp s ack acked).2.doing_nice_now = true := by
    rw [nice_ca_doing]; exact hd
  have hbeg :
      after ack (tcp_nice_cong_avoid limited cwr tp s ack acked).2.beg_snd_nxt =
        false := by
    rw [nice_ca_round_beg limited cwr tp s ack acked hd ha]; exact hn
  have h2 := nice_ca_noop limited cwr
      (tcp_nice_cong_avoid limited cwr tp s ack acked).1
      (tcp_nice_cong_avoid limited cwr tp s ack acked).2 ack acked
      (by rw [hf]; omega) hdoing hbeg hs
  rw [h2]

/-- C8 witness: the amended idempotence instantiated on a
congestion-avoidance state: the first delivery of the boundary ack leaves
cwnd 20 and the second delivery is the identity. -/
theorem nice_round_decision_idempotent_witness :
    tcp_nice_cong_avoid true false
        (tcp_nice_cong_avoid true false tp_c8w nice_c8w 5 1).1
        (tcp_nice_cong_avoid true false tp_c8w nice_c8w 5 1).2 5 1 =
      tcp_nice_cong_avoid true false tp_c8w nice_c8w 5 1 :=
  nice_round_decision_idempotent true false tp_c8w nice_c8w 5 1 (by decide)
    (by decide) (by decide) (by decide) (by decide)

/-! ### C4: the multiplicative-decrease branch -/

/-- C4 counterexample: from a sub-unit state with fractional_cwnd 32 (well
inside the configured maximum 96), the multiplicative-decrease branch
quadruples it to 128, which exceeds max_fwnd: the result is not bounded by
the configured maximum, which is only checked before the update. -/
theorem nice_mult_decrease_uncapped :
    nice_c4s.fractional_cwnd = 32 ∧ nice_c4s.fractional_cwnd ≤ max_fwnd ∧
    (tcp_nice_cong_avoid true false tp_c4 nice_c4s 5 1).2.fractional_cwnd = 128 ∧
    ¬ (tcp_nice_cong_avoid true false tp_c4 nice_c4s 5 1).2.fractional_cwnd ≤
        max_fwnd := by
  decide

lemma nice_vegas_mult_decrease (cwr : Bool) (tp1 : Tcp) (s2 : nice) (acked : Nat)
    (hss : tcp_in_slow_start tp1 = false)
    (hnum : tp1.snd_cwnd / fraction_divisor < s2.numCong)
    (hclamp : tp1.snd_cwnd ≤ tp1.snd_cwnd_clamp) :
    (nice_vegas cwr tp1 s2 acked).2.numCong = 0 ∧
    (2 < tp1.snd_cwnd ∧ s2.fractional_cwnd = 2 →
      (nice_vegas cwr tp1 s2 acked).1.snd_cwnd = max (tp1.snd_cwnd / 2) 2 ∧
      (nice_vegas cwr tp1 s2 acked).2.fractional_cwnd = 2) ∧
    (¬ (2 < tp1.snd_cwnd ∧ s2.fractional_cwnd = 2) →
      s2.fractional_cwnd ≤ max_fwnd →
      (nice_vegas cwr tp1 s2 acked).2.fractional_cwnd =
        s2.fractional_cwnd * 4 % U8) ∧
    (max_fwnd < s2.fractional_cwnd →
      (nice_vegas cwr tp1 s2 acked).2.fractional_cwnd = s2.fractional_cwnd) := by
  have hss' : ¬ (tcp_in_slow_start tp1 = true) := by
    rw [hss]; exact Bool.false_ne_true
  have hmf : max_fwnd = 96 := rfl
  have hu8 : U8 = 256 := rfl
  have hdiv : tp1.snd_cwnd / 2 ≤ tp1.snd_cwnd := Nat.div_le_self _ _
  unfold nice_vegas nice_vegas_core
  dsimp only
  rw [if_neg (fun hh => hss' hh.2), if_neg hss', if_pos hnum]
  by_cases hcase : 2 < tp1.snd_cwnd ∧ s2.fractional_cwnd = 2
  · rw [if_pos hcase]
    dsimp only
    by_cases hlow : tp1.snd_cwnd / 2 < 2
    · rw [if_pos ⟨hlow, hcase.2⟩]
      exact ⟨rfl, fun _ => ⟨by dsimp only; omega, hcase.2⟩,
        fun hn _ => absurd hcase hn, fun hgt => by omega⟩
    · rw [if_neg (fun hh => hlow hh.1), if_neg (by omega)]
      exact ⟨rfl, fun _ => ⟨by dsimp only; omega, hcase.2⟩,
        fun hn _ => absurd hcase hn, fun hgt => by omega⟩
  · rw [if_neg hcase]
    by_cases hle : s2.fractional_cwnd ≤ max_fwnd
    · rw [if_pos hle]
      dsimp only
      have h42 : ¬ (s2.fractional_cwnd * 4 % U8 = 2) := by rw [hu8]; omega
      rw [if_neg (fun hh => h42 hh.2), if_neg (by omega)]
      exact ⟨rfl, fun hcc => absurd hcc hcase, fun _ _ => rfl,
        fun hgt => absurd hle (by omega)⟩
    · rw [if_neg hle]
      dsimp only
      have hf2 : ¬ (s2.fractional_cwnd = 2) := fun hh => hle (by omega)
      rw [if_neg (fun hh => hf2 hh.2), if_neg (by omega)]
      exact ⟨rfl, fun hcc => absurd hcc.2 hf2, fun _ hle2 => absurd hle2 hle,
        fun _ => rfl⟩

/-- C4 amended: when the engine is sampling, a round closes with at least 3
samples, the paced state is not in slow start, and numCong exceeds
cwnd / (100/fraction), the decision resets numCong and performs the
multiplicative decrease: out of sub-unit mode (fractional_cwnd 2 and the
paced cwnd above 2) the new cwnd is the half, floored at 2 by the final
clamp; otherwise, if fractional_cwnd is at most max_fwnd it is quadrupled
modulo 256 with no cap at max_fwnd, and if it already exceeds max_fwnd it
is left unchanged. -/
theorem nice_mult_decrease_spec (limited cwr : Bool) (tp : Tcp) (s : nice)
    (ack acked : Nat)
    (hd : s.doing_nice_now = true) (ha : after ack s.beg_snd_nxt = true)
    (hc : 3 ≤ s.cntRTT)
    (hss : tcp_in_slow_start (nice_pace tp s).1 = false)
    (hnum : (nice_pace tp s).1.snd_cwnd / fraction_divisor < s.numCong)
    (hclamp : (nice_pace tp s).1.snd_cwnd ≤ tp.snd_cwnd_clamp) :
    (tcp_nice_cong_avoid limited cwr tp s ack acked).2.numCong = 0 ∧
    (2 < (nice_pace tp s).1.snd_cwnd ∧ s.fractional_cwnd = 2 →
      (tcp_nice_cong_avoid limited cwr tp s ack acked).1.snd_cwnd =
        max ((nice_pace tp s).1.snd_cwnd / 2) 2 ∧
      (tcp_nice_cong_avoid limited cwr tp s ack acked).2.fractional_cwnd = 2) ∧
    (¬ (2 < (nice_pace tp s).1.snd_cwnd ∧ s.fractional_cwnd = 2) →
      s.fractional_cwnd ≤ max_fwnd →
      (tcp_nice_cong_avoid limited cwr tp s ack acked).2.fractional_cwnd =
        s.fractional_cwnd * 4 % U8) ∧
    (max_fwnd < s.fractional_cwnd →
      (tcp_nice_cong_avoid limited cwr tp s ack acked).2.fractional_cwnd =
        s.fractional_cwnd) := by
  rw [nice_ca_round limited cwr tp s ack acked hd ha (by omega)]
  have base := nice_vegas_mult_decrease cwr (nice_pace tp s).1
      { (nice_pace tp s).2 with beg_snd_nxt := (nice_pace tp s).1.snd_nxt } acked
      hss (by simpa using hnum) (by simpa using hclamp)
  refine ⟨rfl, fun hcase => ?_, fun hcase hle => ?_, fun hgt => ?_⟩
  · have hres := base.2.1 (by simpa using hcase)
    exact ⟨hres.1, by rw [wipe_fwnd]; simpa using hres.2⟩
  · have hres := base.2.2.1 (by simpa using hcase) (by simpa using hle)
    rw [wipe_fwnd, hres]
    simp
  · have hres := base.2.2.2 (by simpa using hgt)
    rw [wipe_fwnd, hres]
    simp

/-- C4 witness: the amended branch behaviour instantiated on the sub-unit
state nice_c4s (fractional_cwnd 32 quadrupled to 128 modulo 256) and on
the integer-mode state nice_c4w (cwnd 9 halved to 4, numCong reset). -/
theorem nice_mult_decrease_spec_witness :
    (tcp_nice_cong_avoid true false tp_c4 nice_c4s 5 1).2.fractional_cwnd =
      nice_c4s.fractional_cwnd * 4 % U8 ∧
    (tcp_nice_cong_avoid true false tp_c4w nice_c4w 5 1).1.snd_cwnd =
      max ((nice_pace tp_c4w nice_c4w).1.snd_cwnd / 2) 2 ∧
    (tcp_nice_cong_avoid true false tp_c4w nice_c4w 5 1).2.numCong = 0 :=
  ⟨(nice_mult_decrease_spec true false tp_c4 nice_c4s 5 1 (by decide) (by decide)
      (by decide) (by decide) (by decide) (by decide)).2.2.1 (by decide) (by decide),
   ((nice_mult_decrease_spec true false tp_c4w nice_c4w 5 1 (by decide) (by decide)
      (by decide) (by decide) (by decide) (by decide)).2.1 (by decide)).1,
   (nice_mult_decrease_spec true false tp_c4w nice_c4w 5 1 (by decide) (by decide)
      (by decide) (by decide) (by decide) (by decide)).1⟩

/-! ### C7: division safety -/

lemma ninv_init (tp : Tcp) (s : nice) : NInv (tcp_nice_init tp s) := by
  unfold NInv tcp_nice_init nice_enable
  dsimp only
  omega

lemma ninv_pkts (s : nice) (rtt_us : Int) (h : NInv s) :
    NInv (tcp_nice_pkts_acked s rtt_us) := by
  unfold NInv tcp_nice_pkts_acked at *
  by_cases hr : rtt_us < 0
  · rw [if_pos hr]; exact h
  · rw [if_neg hr]
    dsimp only
    refine ⟨by omega, ?_⟩
    split_ifs <;> omega

lemma ninv_state (tp : Tcp) (s : nice) (b : Bool) (h : NInv s) :
    NInv (tcp_nice_state tp s b) := by
  unfold NInv tcp_nice_state nice_enable nice_disable at *
  split_ifs <;> dsimp only <;> omega

lemma ninv_event (tp : Tcp) (s : nice) (ev : CaEvent) (h : NInv s) :
    NInv (tcp_nice_cwnd_event tp s ev) := by
  unfold tcp_nice_cwnd_event
  split_ifs
  · exact ninv_init tp s
  · exact h

lemma nice_ca_baseRTT (limited cwr : Bool) (tp : Tcp) (s : nice) (ack acked : Nat) :
    (tcp_nice_cong_avoid limited cwr tp s ack acked).2.baseRTT = s.baseRTT := by
  unfold tcp_nice_cong_avoid
  dsimp only
  split_ifs <;> simp

lemma nice_ca_minRTT (limited cwr : Bool) (tp : Tcp) (s : nice) (ack acked : Nat) :
    (tcp_nice_cong_avoid limited cwr tp s ack acked).2.minRTT = s.minRTT ∨
    (tcp_nice_cong_avoid limited cwr tp s ack acked).2.minRTT = 2147483647 := by
  unfold tcp_nice_cong_avoid
  dsimp only
  split_ifs
  · right; simp [nice_wipe]
  · right; simp [nice_wipe]
  · left; simp
  · left; simp
  · left; simp

lemma ninv_ca (limited cwr : Bool) (tp : Tcp) (s : nice) (ack acked : Nat)
    (h : NInv s) : NInv (tcp_nice_cong_avoid limited cwr tp s ack acked).2 := by
  constructor
  · rcases nice_ca_minRTT limited cwr tp s ack acked with h1 | h1 <;> rw [h1]
    · exact h.1
    · omega
  · rw [nice_ca_baseRTT]
    exact h.2

lemma nreach_inv (s : nice) (h : NReach s) : NInv s := by
  induction h with
  | start tp => exact ninv_init tp nice0
  | init tp s hs ih => exact ninv_init tp s
  | pkts s rtt hs hr ih => exact ninv_pkts s rtt ih
  | state tp s b hs ih => exact ninv_state tp s b ih
  | event tp s ev hs ih => exact ninv_event tp s ev ih
  | ca limited cwr tp s ack acked hs ih => exact ninv_ca limited cwr tp s ack acked ih

lemma winv_init (tp : Tcp) (now : Nat) : WInv (tcp_westwood_init tp now) := by
  unfold WInv tcp_westwood_init TCP_WESTWOOD_INIT_RTT
  dsimp only
  omega

lemma winv_pkts (w : westwood) (rtt : Int) (hr : rtt ≤ 2147483647) (h : WInv w) :
    WInv (tcp_westwood_pkts_acked w rtt) := by
  unfold WInv tcp_westwood_pkts_acked usecs_to_jiffies at *
  split_ifs with h0
  · dsimp only
    exact ⟨by omega, by omega, h.2.2.1, h.2.2.2⟩
  · exact h

@[simp] lemma wuw_rtt (tp : Tcp) (w : westwood) (now : Nat) :
    (westwood_update_window tp w now).rtt = w.rtt := by
  unfold westwood_update_window westwood_filter
  dsimp only
  split_ifs <;> rfl

@[simp] lemma wuw_delay_loss (tp : Tcp) (w : westwood) (now : Nat) :
    (westwood_update_window tp w now).delay_loss = w.delay_loss := by
  unfold westwood_update_window westwood_filter
  dsimp only
  split_ifs <;> rfl

@[simp] lemma wacked_rtt (tp : Tcp) (w : westwood) :
    (westwood_acked_count tp w).rtt = w.rtt := rfl

@[simp] lemma wacked_delay_loss (tp : Tcp) (w : westwood) :
    (westwood_acked_count tp w).delay_loss = w.delay_loss := rfl

@[simp] lemma wurm_rtt (w : westwood) : (update_rtt_min w).rtt = w.rtt := by
  unfold update_rtt_min
  split_ifs <;> rfl

@[simp] lemma wurm_delay_loss (w : westwood) :
    (update_rtt_min w).delay_loss = w.delay_loss := by
  unfold update_rtt_min
  split_ifs <;> rfl

@[simp] lemma wfb_rtt (tp : Tcp) (w : westwood) (now : Nat) :
    (westwood_fast_bw tp w now).rtt = w.rtt := by
  unfold westwood_fast_bw
  dsimp only
  simp

@[simp] lemma wfb_delay_loss (tp : Tcp) (w : westwood) (now : Nat) :
    (westwood_fast_bw tp w now).delay_loss = w.delay_loss := by
  unfold westwood_fast_bw
  dsimp only
  simp

lemma wack_rtt (tp : Tcp) (w : westwood) (now : Nat) (sp : Bool) :
    (tcp_westwood_ack tp w now sp).rtt = w.rtt := by
  unfold tcp_westwood_ack
  dsimp only
  split_ifs <;> simp

lemma wack_delay_loss (tp : Tcp) (w : westwood) (now : Nat) (sp : Bool) :
    (tcp_westwood_ack tp w now sp).delay_loss = w.delay_loss := by
  unfold tcp_westwood_ack
  dsimp only
  split_ifs <;> simp

lemma wca_rtt (limited : Bool) (tp : Tcp) (w : westwood) (acked : Nat) :
    (tcp_westwood_cong_avoid limited tp w acked).2.rtt = w.rtt := by
  unfold tcp_westwood_cong_avoid
  dsimp only
  split_ifs <;> rfl

lemma wca_delay_loss (limited : Bool) (tp : Tcp) (w : westwood) (acked : Nat) :
    (tcp_westwood_cong_avoid limited tp w acked).2.delay_loss = w.delay_loss := by
  unfold tcp_westwood_cong_avoid
  dsimp only
  split_ifs <;> rfl

lemma winv_ack (tp : Tcp) (w : westwood) (now : Nat) (sp : Bool) (h : WInv w) :
    WInv (tcp_westwood_ack tp w now sp) := by
  unfold WInv at *
  rw [wack_rtt, wack_delay_loss]
  exact h

lemma winv_ca (limited : Bool) (tp : Tcp) (w : westwood) (acked : Nat) (h : WInv w) :
    WInv (tcp_westwood_cong_avoid limited tp w acked).2 := by
  unfold WInv at *
  rw [wca_rtt, wca_delay_loss]
  exact h

lemma wud_bounds (rtt dl : Nat) (h1 : 1 ≤ rtt) (h2 : rtt ≤ 2147484)
    (h3 : 1 ≤ dl) (h4 : dl ≤ 8589939) :
    1 ≤ westwood_update_delay rtt dl ∧ westwood_update_delay rtt dl ≤ 8589939 := by
  unfold westwood_update_delay sub32 U32
  split_ifs with hc
  · have hq : dl / 4 % 4294967296 = dl / 4 := Nat.mod_eq_of_lt (by omega)
    have hr : rtt % 4294967296 = rtt := Nat.mod_eq_of_lt (by omega)
    rw [hq, hr]
    by_cases hcase : dl / 4 ≤ rtt
    · have e1 : (rtt + (4294967296 - dl / 4)) % 4294967296 = rtt - dl / 4 := by
        omega
      rw [e1]
      have e2 : (dl + (rtt - dl / 4)) % 4294967296 = dl + (rtt - dl / 4) :=
        Nat.mod_eq_of_lt (by omega)
      rw [e2]
      omega
    · have e1 : (rtt + (4294967296 - dl / 4)) % 4294967296 =
          rtt + 4294967296 - dl / 4 := by omega
      rw [e1]
      have e2 : (dl + (rtt + 4294967296 - dl / 4)) % 4294967296 =
          dl + rtt - dl / 4 := by omega
      rw [e2]
      omega
  · omega

lemma winv_event (tp : Tcp) (w : westwood) (ev : CaEvent) (h : WInv w) :
    WInv (tcp_westwood_event tp w ev).2 := by
  unfold WInv at *
  cases ev <;> dsimp only [tcp_westwood_event] <;> try exact h
  have hb := wud_bounds w.rtt w.delay_loss h.1 h.2.1 h.2.2.1 h.2.2.2
  exact ⟨h.1, h.2.1, hb.1, hb.2⟩

lemma wreach_inv (w : westwood) (h : WReach w) : WInv w := by
  induction h with
  | init tp now => exact winv_init tp now
  | pkts w rtt hw hr ih => exact winv_pkts w rtt hr ih
  | ack tp w now sp hw ih => exact winv_ack tp w now sp ih
  | ca limited tp w acked hw ih => exact winv_ca limited tp w acked ih
  | event tp w ev hw ih => exact winv_event tp w ev ih

/-- C7 counterexample: three samples of 2147483646 microseconds in one
round leave cntRTT at 3 while minRTT and baseRTT still equal the
0x7fffffff sentinel (each sample is processed as exactly the sentinel
value), and the next round decision still runs the Vegas divisions (the
diff < alpha path increments cwnd to 11): at least 3 samples do not
guarantee the divisors have been set below their sentinel. -/
theorem nice_three_samples_sentinel_not_lowered :
    nice_c7s.cntRTT = 3 ∧ nice_c7s.minRTT = 2147483647 ∧
    nice_c7s.baseRTT = 2147483647 ∧ nice_c7s.doing_nice_now = true ∧
    after 5 nice_c7s.beg_snd_nxt = true ∧
    (tcp_nice_cong_avoid true false tp_c7 nice_c7s 5 1).1.snd_cwnd = 11 := by
  decide

/-- C7 amended: no guarded division runs with a zero divisor: the Westwood
bandwidth filter division by the elapsed time runs only under a guard that
forces the (u32) elapsed time to be positive; for every reachable Westwood
state delay_loss is positive and each EWR branch guard forces its other
divisor (dmax_avg, respectively delay_max) to be nonzero; and for every
reachable Nice state the Vegas-round divisors minRTT and baseRTT are
positive (at least 1, though samples need not have pushed them strictly
below the 0x7fffffff sentinel). -/
theorem division_guards_safe :
    (∀ (w : westwood) (now : Nat),
      w.rtt ≠ 0 → max w.rtt TCP_WESTWOOD_RTT_MIN < sub32 now w.rtt_win_sx →
      0 < sub32 now w.rtt_win_sx) ∧
    (∀ w : westwood, WReach w →
      0 < w.delay_loss ∧
      (ewr_avg_cond w = true → w.dmax_avg ≠ 0) ∧
      (∀ tp : Tcp, ewr_raw_cond tp w = true → w.delay_max ≠ 0)) ∧
    (∀ s : nice, NReach s → 0 < s.minRTT ∧ 0 < s.baseRTT) := by
  refine ⟨fun w now h1 h2 => by omega, fun w hw => ?_, fun s hs => ?_⟩
  · obtain ⟨hi1, hi2, hi3, hi4⟩ := wreach_inv w hw
    refine ⟨by omega, fun hc => ?_, fun tp hc => ?_⟩
    · simp [ewr_avg_cond] at hc
      exact hc.2
    · simp [ewr_raw_cond] at hc
      exact hc.2.1
  · have hi := nreach_inv s hs
    exact ⟨hi.1, hi.2⟩

/-- C7 witness: the guard implications instantiated on a fresh Westwood
state 30000 jiffies after its window start, the reachable state w_c7b with
a non-degenerate envelope, and the reachable Nice state nice_c7s. -/
theorem division_guards_safe_witness :
    0 < sub32 30000 (tcp_westwood_init tp0 0).rtt_win_sx ∧
    0 < w_c7b.delay_loss ∧ w_c7b.delay_max ≠ 0 ∧
    0 < nice_c7s.minRTT ∧ 0 < nice_c7s.baseRTT := by
  have hwb : WReach w_c7b :=
    WReach.ack tp0 (tcp_westwood_pkts_acked w_c7a 200000) 0 true
      (WReach.pkts w_c7a 200000
        (WReach.ack tp0 (tcp_westwood_pkts_acked (tcp_westwood_init tp0 0) 100000)
          0 true
          (WReach.pkts (tcp_westwood_init tp0 0) 100000 (WReach.init tp0 0)
            (by decide)))
        (by decide))
  have hns : NReach nice_c7s :=
    NReach.pkts _ 2147483646
      (NReach.pkts _ 2147483646
        (NReach.pkts _ 2147483646 (NReach.start tp0) (by decide)) (by decide))
      (by decide)
  have hw := division_guards_safe.2.1 w_c7b hwb
  have hn := division_guards_safe.2.2 nice_c7s hns
  exact ⟨division_guards_safe.1 (tcp_westwood_init tp0 0) 30000 (by decide)
      (by decide),
    hw.1, hw.2.2 tp0 (by decide), hn.1, hn.2⟩

/-! ### C10: the delay_loss filter scenario -/

/-- C10: starting from init (delay_loss at its unset sentinel 1) with the
filtered rtt brought to 100, the first Loss event sets delay_loss to
100 << 2 = 400; after the filtered rtt moves to 120, the second Loss event
applies the 3/4-old + 1/4-new filter, giving
delay_loss - (delay_loss >> 2) + 120 = 420. -/
theorem westwood_delay_loss_scenario :
    (tcp_westwood_init tp0 0).delay_loss = 1 ∧ w_c10a.rtt = 100 ∧
    w_c10a.delay_loss = 1 ∧ w_c10b.delay_loss = 100 * 4 ∧
    w_c10c.rtt = 120 ∧
    w_c10d.delay_loss = w_c10b.delay_loss - w_c10b.delay_loss / 4 + 120 ∧
    w_c10d.delay_loss = 420 := by
  decide

end LbeTcp
